import Mathlib

/-!
Shallow embedding of the collective-communication layer of
`torchrec/distributed/comm_ops.py`.

Modelling conventions used throughout:
* a tensor is its flat (row-major) list of elements, `List ℚ` (exact
  rationals stand in for floats: all the properties checked here are
  scaling/permutation facts that hold exactly);
* a 2-d tensor, where its row structure matters, is a `List (List ℚ)`
  of rows;
* split sizes and shapes are natural numbers;
* a fallible tensor operation (`torch.split` with sizes that do not sum
  to the length, `view` with a non-dividing row count, a failing
  `assert`) returns `Option`/`Except`;
* the network transfer itself (`dist.all_to_all_single` etc.) is an
  external collaborator and is passed in as an abstract function
  `transfer : List ℚ → List ℕ → List ℕ → List ℚ` taking the wire
  payload, the output split sizes and the input split sizes;
* the quantization codec (`torchrec.distributed.types.QuantizedCommCodecs`,
  an external collaborator interface) is a record of `encode`/`decode`
  functions plus `calcQuantizedSize`; contexts are elided since no claim
  depends on them.
-/

namespace CommOps

/-- One direction of a quantized-communication codec: the
`encode`/`decode` wire transforms and the `calc_quantized_size` split-size
transform of the codec interface (§4.3 of the design). -/
structure CommCodec where
  encode : List ℚ → List ℚ
  decode : List ℚ → List ℚ
  calcQuantizedSize : ℕ → ℕ

/-- A pair of independently configured codec directions, mirroring
`QuantizedCommCodecs` with its `forward` and `backward` members. -/
structure QuantizedCommCodecs where
  forward : CommCodec
  backward : CommCodec

/-- `_get_split_lengths_by_len(world_size, my_rank, n)` from
`comm_ops.py`: floor-division partition of `n` over `world_size` ranks,
the first `n % world_size` ranks getting one extra element; returns the
caller's own length together with the whole split list. -/
def getSplitLengthsByLen (world_size my_rank n : ℕ) : ℕ × List ℕ :=
  let k := n / world_size
  let m := n % world_size
  if m = 0 then
    (k, List.replicate world_size k)
  else
    let splits := (List.range world_size).map (fun i => if i < m then k + 1 else k)
    (splits.getD my_rank 0, splits)

/-- Sum of the length-`W` list whose `i`-th entry is `k+1` for `i < m`
and `k` otherwise. -/
lemma sum_range_if (W m k : ℕ) :
    ((List.range W).map (fun i => if i < m then k + 1 else k)).sum = W * k + min m W := by
  induction W with
  | zero => simp
  | succ w ih =>
    rw [List.range_succ, List.map_append, List.sum_append, ih, Nat.succ_mul]
    by_cases h : w < m
    · simp only [List.map_cons, List.map_nil, List.sum_cons, List.sum_nil, if_pos h]
      omega
    · simp only [List.map_cons, List.map_nil, List.sum_cons, List.sum_nil, if_neg h]
      omega

/-- Reading an in-range position of `(List.range W).map f`. -/
lemma getD_map_range (W i : ℕ) (f : ℕ → ℕ) (h : i < W) :
    ((List.range W).map f).getD i 0 = f i := by
  rw [List.getD_eq_getElem?_getD, List.getElem?_map, List.getElem?_range h]
  rfl

/-- Reading an in-range position of a replicated list. -/
lemma getD_replicate (W i k : ℕ) (h : i < W) :
    (List.replicate W k).getD i 0 = k := by
  rw [List.getD_eq_getElem?_getD, List.getElem?_replicate]
  simp [h]

/-- C4: `_get_split_lengths_by_len(W, r, n)` returns `(my_len, splits)`
with `splits` of length `W` summing to `n`, whose first `n % W` entries
are `n / W + 1` and remaining entries `n / W`, and `my_len = splits[r]`. -/
theorem C4_get_split_lengths_by_len (W r n : ℕ) (hW : 1 ≤ W) (hr : r < W) :
    (getSplitLengthsByLen W r n).2.length = W ∧
    (getSplitLengthsByLen W r n).2.sum = n ∧
    (∀ i, i < n % W → (getSplitLengthsByLen W r n).2.getD i 0 = n / W + 1) ∧
    (∀ i, n % W ≤ i → i < W → (getSplitLengthsByLen W r n).2.getD i 0 = n / W) ∧
    (getSplitLengthsByLen W r n).1 = (getSplitLengthsByLen W r n).2.getD r 0 := by
  have hmod : n % W < W := Nat.mod_lt _ (by omega)
  have hdm : W * (n / W) + n % W = n := Nat.div_add_mod n W
  by_cases hm : n % W = 0
  · have heq : getSplitLengthsByLen W r n = (n / W, List.replicate W (n / W)) := by
      simp [getSplitLengthsByLen, hm]
    rw [heq]
    refine ⟨by simp, ?_, ?_, ?_, ?_⟩
    · simp only [List.sum_replicate, smul_eq_mul]
      omega
    · intro i hi; omega
    · intro i _ hi
      exact getD_replicate W i _ hi
    · exact (getD_replicate W r _ hr).symm
  · have heq : getSplitLengthsByLen W r n =
        (((List.range W).map fun i => if i < n % W then n / W + 1 else n / W).getD r 0,
         (List.range W).map fun i => if i < n % W then n / W + 1 else n / W) := by
      simp [getSplitLengthsByLen, hm]
    rw [heq]
    refine ⟨by simp, ?_, ?_, ?_, rfl⟩
    · rw [sum_range_if]
      omega
    · intro i hi
      rw [getD_map_range W i _ (lt_trans hi hmod), if_pos hi]
    · intro i h1 h2
      rw [getD_map_range W i _ h2, if_neg (by omega)]

/-- Closed instance of `C4_get_split_lengths_by_len`, also checking the
spec's worked example `W=3, n=10 → splits [4,3,3]`, rank 0 length 4. -/
theorem C4_witness :
    (1 ≤ 3 ∧ 0 < 3) ∧
    (getSplitLengthsByLen 3 0 10 = (4, [4, 3, 3])) ∧
    ((getSplitLengthsByLen 3 0 10).2.length = 3 ∧
     (getSplitLengthsByLen 3 0 10).2.sum = 10 ∧
     (∀ i, i < 10 % 3 → (getSplitLengthsByLen 3 0 10).2.getD i 0 = 10 / 3 + 1) ∧
     (∀ i, 10 % 3 ≤ i → i < 3 → (getSplitLengthsByLen 3 0 10).2.getD i 0 = 10 / 3) ∧
     (getSplitLengthsByLen 3 0 10).1 = (getSplitLengthsByLen 3 0 10).2.getD 0 0) :=
  ⟨by decide, by decide, C4_get_split_lengths_by_len 3 0 10 (by decide) (by decide)⟩

/-! ### Backward primitives and the Gradient-Division Policy (C1)

Each `*_Req.backward` in `comm_ops.py` waits on the outstanding transfer,
decodes the received gradient with the backward codec when one is
attached, optionally re-permutes it, and divides it in place by the
world size iff the process-wide `GRADIENT_DIVISION` flag is set.  The
functions below are the rank-local value computation of each backward,
taking the flag (`gd`), the world size, the optional codec pair and the
received gradient tensor.  Reshapes (`view`) preserve element values and
are elided; the dual transfer itself is value-preserving data movement
performed by the matching `Wait.backward` and is represented by its
result, the `grad_output` argument. -/

/-- Decode a received gradient with the backward-direction codec when a
codec pair is attached (`codecs.backward.decode`). -/
def backwardDecode (codecs : Option QuantizedCommCodecs) (g : List ℚ) : List ℚ :=
  match codecs with
  | some cs => cs.backward.decode g
  | none => g

/-- Elementwise scaling of a tensor, used to state the
"disabled gradients are world-size times enabled gradients" relation. -/
def scaleList (c : ℚ) (xs : List ℚ) : List ℚ :=
  xs.map (fun x => c * x)

/-- `All2All_Pooled_Req.backward` (comm_ops.py:1256-1279): decode the
all-to-all'd gradient, then `grad_input.div_(world_size)` iff
`GRADIENT_DIVISION`. -/
def all2All_Pooled_Req_backward (gd : Bool) (W : ℕ)
    (codecs : Option QuantizedCommCodecs) (grad_output : List ℚ) : List ℚ :=
  let grad_input := backwardDecode codecs grad_output
  if gd then grad_input.map (fun x => x / (W : ℚ)) else grad_input

/-- `Variable_Batch_All2All_Pooled_Req.backward` (comm_ops.py:1483-1503):
decode, then divide by world size iff `GRADIENT_DIVISION`. -/
def variable_Batch_All2All_Pooled_Req_backward (gd : Bool) (W : ℕ)
    (codecs : Option QuantizedCommCodecs) (grad_output : List ℚ) : List ℚ :=
  let grad_input := backwardDecode codecs grad_output
  if gd then grad_input.map (fun x => x / (W : ℚ)) else grad_input

/-- `All2All_Seq_Req.backward` (comm_ops.py:1701-1742): decode, re-apply
the backward recat permutation (the fbgemm `permute_*_sparse_data`
kernel, an external collaborator, abstracted as `permute`; it is skipped
when `permuted_lengths_after_sparse_data_all2all` is `None`, flag
`hasPermutedLengths`), then divide by world size iff `GRADIENT_DIVISION`. -/
def all2All_Seq_Req_backward (gd : Bool) (W : ℕ)
    (codecs : Option QuantizedCommCodecs) (permute : List ℚ → List ℚ)
    (hasPermutedLengths : Bool) (grad_output : List ℚ) : List ℚ :=
  let g := backwardDecode codecs grad_output
  let g := if hasPermutedLengths then permute g else g
  if gd then g.map (fun x => x / (W : ℚ)) else g

/-- `All2Allv_Req.backward` (comm_ops.py:1863-1878): decode the
all-to-all'd gradient and split it per local table.  The source applies
NO gradient division here: the `gd` flag is accepted (the backward runs
under the same process-wide policy) but, faithfully to the code, never
read.  The value-preserving `view`/`split` into per-table gradients is
elided. -/
def all2Allv_Req_backward (gd : Bool) (W : ℕ)
    (codecs : Option QuantizedCommCodecs) (grad_output : List ℚ) : List ℚ :=
  backwardDecode codecs grad_output

/-- `ReduceScatter_Req.backward` (comm_ops.py:1978-1995): the all-gathered
per-rank gradient list is decoded entrywise, then each entry is divided
by world size iff `GRADIENT_DIVISION`. -/
def reduceScatter_Req_backward (gd : Bool) (W : ℕ)
    (codecs : Option QuantizedCommCodecs) (grad_outputs : List (List ℚ)) :
    List (List ℚ) :=
  let grad_inputs := grad_outputs.map (backwardDecode codecs)
  if gd then grad_inputs.map (fun g => g.map (fun x => x / (W : ℚ))) else grad_inputs

/-- `ReduceScatterBase_Req.backward` (comm_ops.py:2086-2099): decode, then
divide by world size iff `GRADIENT_DIVISION`. -/
def reduceScatterBase_Req_backward (gd : Bool) (W : ℕ)
    (codecs : Option QuantizedCommCodecs) (grad_output : List ℚ) : List ℚ :=
  let grad_inputs := backwardDecode codecs grad_output
  if gd then grad_inputs.map (fun x => x / (W : ℚ)) else grad_inputs

/-- `AllGatherBase_Req.backward` (comm_ops.py:2181-2196): decode, then
divide by world size iff `GRADIENT_DIVISION`. -/
def allGatherBase_Req_backward (gd : Bool) (W : ℕ)
    (codecs : Option QuantizedCommCodecs) (grad_output : List ℚ) : List ℚ :=
  let grad_input := backwardDecode codecs grad_output
  if gd then grad_input.map (fun x => x / (W : ℚ)) else grad_input

/-- `ReduceScatterV_Req.backward` (comm_ops.py:2293-2307): decode, then
divide by world size iff `GRADIENT_DIVISION`. -/
def reduceScatterV_Req_backward (gd : Bool) (W : ℕ)
    (codecs : Option QuantizedCommCodecs) (grad_output : List ℚ) : List ℚ :=
  let grad_input := backwardDecode codecs grad_output
  if gd then grad_input.map (fun x => x / (W : ℚ)) else grad_input

/-- Scaling a tensor back up by `W` undoes the division by `W`. -/
lemma scale_div_id (W : ℕ) (hW : 1 ≤ W) (g : List ℚ) :
    scaleList (W : ℚ) (g.map (fun x => x / (W : ℚ))) = g := by
  have hW0 : (W : ℚ) ≠ 0 := Nat.cast_ne_zero.mpr (by omega)
  simp only [scaleList, List.map_map]
  have hfun : ((fun x => (W : ℚ) * x) ∘ fun x => x / (W : ℚ)) = id := by
    funext x
    simp only [Function.comp_apply, id_eq]
    rw [mul_comm]
    exact div_mul_cancel₀ x hW0
  rw [hfun, List.map_id]

/-- C1 (counterexample): the claim asserts that for the vector all-to-all
(`alltoallv`) backward too, disabling the Gradient-Division Policy
yields gradients exactly `world_size` times the enabled ones.  At world
size 2 with incoming gradient `[1]` and no codec, `All2Allv_Req.backward`
returns `[1]` under both settings, not `[2]` when disabled: its source
never applies the division. -/
theorem C1_counterexample :
    ¬ (all2Allv_Req_backward false 2 none [(1 : ℚ)]
       = scaleList (2 : ℚ) (all2Allv_Req_backward true 2 none [(1 : ℚ)])) := by
  norm_num [all2Allv_Req_backward, backwardDecode, scaleList]

/-- C1 (amended): for the pooled, variable-batch pooled, sequence,
reduce-scatter, reduce-scatter-base, all-gather-base and
reduce-scatter-v backward primitives, the gradient is divided by the
world size iff the Gradient-Division Policy is enabled — so the gradient
with the policy disabled is exactly `world_size` times the gradient with
it enabled.  The vector all-to-all (`alltoallv`) backward is the
exception: it never divides, so its gradient is identical under both
settings. -/
theorem C1_gradient_division (W : ℕ) (hW : 1 ≤ W)
    (codecs : Option QuantizedCommCodecs) (g : List ℚ) (gs : List (List ℚ))
    (permute : List ℚ → List ℚ) (hasPL : Bool) :
    all2All_Pooled_Req_backward false W codecs g
      = scaleList (W : ℚ) (all2All_Pooled_Req_backward true W codecs g) ∧
    variable_Batch_All2All_Pooled_Req_backward false W codecs g
      = scaleList (W : ℚ) (variable_Batch_All2All_Pooled_Req_backward true W codecs g) ∧
    all2All_Seq_Req_backward false W codecs permute hasPL g
      = scaleList (W : ℚ) (all2All_Seq_Req_backward true W codecs permute hasPL g) ∧
    reduceScatter_Req_backward false W codecs gs
      = (reduceScatter_Req_backward true W codecs gs).map (scaleList (W : ℚ)) ∧
    reduceScatterBase_Req_backward false W codecs g
      = scaleList (W : ℚ) (reduceScatterBase_Req_backward true W codecs g) ∧
    allGatherBase_Req_backward false W codecs g
      = scaleList (W : ℚ) (allGatherBase_Req_backward true W codecs g) ∧
    reduceScatterV_Req_backward false W codecs g
      = scaleList (W : ℚ) (reduceScatterV_Req_backward true W codecs g) ∧
    all2Allv_Req_backward false W codecs g = all2Allv_Req_backward true W codecs g := by
  refine ⟨?_, ?_, ?_, ?_, ?_, ?_, ?_, rfl⟩
  · exact (scale_div_id W hW _).symm
  · exact (scale_div_id W hW _).symm
  · exact (scale_div_id W hW _).symm
  · simp only [reduceScatter_Req_backward, Bool.false_eq_true, if_false, if_true,
      List.map_map]
    refine List.map_congr_left ?_
    intro a _
    simp only [Function.comp_apply]
    exact (scale_div_id W hW _).symm
  · exact (scale_div_id W hW _).symm
  · exact (scale_div_id W hW _).symm
  · exact (scale_div_id W hW _).symm

/-- Closed instance of `C1_gradient_division` at world size 2, no codec,
gradient `[2]`, gathered gradients `[[2]]`, identity permutation. -/
theorem C1_witness :
    1 ≤ 2 ∧
    (all2All_Pooled_Req_backward false 2 none [(2 : ℚ)]
       = scaleList (2 : ℚ) (all2All_Pooled_Req_backward true 2 none [(2 : ℚ)]) ∧
     variable_Batch_All2All_Pooled_Req_backward false 2 none [(2 : ℚ)]
       = scaleList (2 : ℚ) (variable_Batch_All2All_Pooled_Req_backward true 2 none [(2 : ℚ)]) ∧
     all2All_Seq_Req_backward false 2 none id false [(2 : ℚ)]
       = scaleList (2 : ℚ) (all2All_Seq_Req_backward true 2 none id false [(2 : ℚ)]) ∧
     reduceScatter_Req_backward false 2 none [[(2 : ℚ)]]
       = (reduceScatter_Req_backward true 2 none [[(2 : ℚ)]]).map (scaleList (2 : ℚ)) ∧
     reduceScatterBase_Req_backward false 2 none [(2 : ℚ)]
       = scaleList (2 : ℚ) (reduceScatterBase_Req_backward true 2 none [(2 : ℚ)]) ∧
     allGatherBase_Req_backward false 2 none [(2 : ℚ)]
       = scaleList (2 : ℚ) (allGatherBase_Req_backward true 2 none [(2 : ℚ)]) ∧
     reduceScatterV_Req_backward false 2 none [(2 : ℚ)]
       = scaleList (2 : ℚ) (reduceScatterV_Req_backward true 2 none [(2 : ℚ)]) ∧
     all2Allv_Req_backward false 2 none [(2 : ℚ)]
       = all2Allv_Req_backward true 2 none [(2 : ℚ)]) :=
  ⟨by decide, C1_gradient_division 2 (by decide) none [(2 : ℚ)] [[(2 : ℚ)]] id false⟩

/-! ### Collective descriptors and entry points (C2, C6, C8) -/

/-- `All2AllPooledInfo` dataclass.  The two optional tensor caches
(`dim_sum_per_rank_tensor`, `cumsum_dim_sum_per_rank_tensor`), used only
by a fast recat kernel, are elided. -/
structure All2AllPooledInfo where
  batch_size_per_rank : List ℕ
  dim_sum_per_rank : List ℕ
  codecs : Option QuantizedCommCodecs

/-- `VariableBatchAll2AllPooledInfo` dataclass, with its mutable split
lists that start out `None` and are filled in during forward. -/
structure VariableBatchAll2AllPooledInfo where
  batch_size_per_rank_per_feature : List (List ℕ)
  batch_size_per_feature_pre_a2a : List ℕ
  emb_dim_per_rank_per_feature : List (List ℕ)
  codecs : Option QuantizedCommCodecs
  input_splits : Option (List ℕ)
  output_splits : Option (List ℕ)

/-- `All2AllSequenceInfo` dataclass.  Tensors of lengths and recat
indices are lists of naturals; the mutable permuted-lengths bridge field
is kept as an `Option`. -/
structure All2AllSequenceInfo where
  embedding_dim : ℕ
  lengths_after_sparse_data_all2all : List ℕ
  forward_recat_tensor : Option (List ℕ)
  backward_recat_tensor : List ℕ
  input_splits : List ℕ
  output_splits : List ℕ
  variable_batch_size : Bool
  codecs : Option QuantizedCommCodecs
  permuted_lengths_after_sparse_data_all2all : Option (List ℕ)

/-- `All2AllVInfo` dataclass. -/
structure All2AllVInfo where
  dims_sum_per_rank : List ℕ
  B_global : ℕ
  B_local : ℕ
  B_local_list : List ℕ
  D_local_list : List ℕ
  input_split_sizes : List ℕ
  output_split_sizes : List ℕ
  codecs : Option QuantizedCommCodecs

/-- `ReduceScatterInfo` dataclass; each `torch.Size` of a flat input is
its length. -/
structure ReduceScatterInfo where
  input_sizes : List ℕ
  codecs : Option QuantizedCommCodecs

/-- `ReduceScatterBaseInfo` dataclass. -/
structure ReduceScatterBaseInfo where
  input_sizes : ℕ
  codecs : Option QuantizedCommCodecs

/-- `AllGatherBaseInfo` dataclass. -/
structure AllGatherBaseInfo where
  input_size : ℕ
  codecs : Option QuantizedCommCodecs

/-- `ReduceScatterVInfo` dataclass. -/
structure ReduceScatterVInfo where
  input_sizes : List (List ℕ)
  input_splits : List ℕ
  equal_splits : Bool
  total_input_size : List ℕ
  codecs : Option QuantizedCommCodecs

/-- Result of a collective entry point: either the degenerate
single-rank `NoWait(value)` bypass, or a `Request` carrying the
descriptor built for the async `*_Req.apply` call together with the
input handed to it.  (`N` is the type of the bypass value, `T` the type
of the input threaded to the request: they differ for
`reduce_scatter_pooled`, whose bypass returns `inputs[group.rank()]`.) -/
inductive CommResult (N : Type) (T : Type) (I : Type) where
  | noWait (value : N)
  | request (info : I) (input : T)

/-- Whether an `Except`-wrapped entry-point result is the `NoWait`
bypass. -/
def isNoWaitResult {N T I : Type} : Except String (CommResult N T I) → Bool
  | .ok (.noWait _) => true
  | _ => false

/-- `alltoall_pooled` (comm_ops.py:317-375): single-rank bypass, then
descriptor construction and async request. -/
def alltoall_pooled (groupSize : ℕ) (input : List ℚ)
    (batch_size_per_rank dim_sum_per_rank : List ℕ)
    (codecs : Option QuantizedCommCodecs) : CommResult (List ℚ) (List ℚ) All2AllPooledInfo :=
  if groupSize ≤ 1 then .noWait input
  else .request
    { batch_size_per_rank := batch_size_per_rank
      dim_sum_per_rank := dim_sum_per_rank
      codecs := codecs } input

/-- `variable_batch_alltoall_pooled` (comm_ops.py:438-467). -/
def variable_batch_alltoall_pooled (groupSize : ℕ) (input : List ℚ)
    (batch_size_per_rank_per_feature : List (List ℕ))
    (batch_size_per_feature_pre_a2a : List ℕ)
    (emb_dim_per_rank_per_feature : List (List ℕ))
    (codecs : Option QuantizedCommCodecs) :
    CommResult (List ℚ) (List ℚ) VariableBatchAll2AllPooledInfo :=
  if groupSize ≤ 1 then .noWait input
  else .request
    { batch_size_per_rank_per_feature := batch_size_per_rank_per_feature
      batch_size_per_feature_pre_a2a := batch_size_per_feature_pre_a2a
      emb_dim_per_rank_per_feature := emb_dim_per_rank_per_feature
      codecs := codecs
      input_splits := none
      output_splits := none } input

/-- `alltoall_sequence` (comm_ops.py:544-609); the input is a matrix
whose column count `shape[1]` becomes `embedding_dim`. -/
def alltoall_sequence (groupSize : ℕ) (input : List (List ℚ))
    (forward_recat_tensor backward_recat_tensor : List ℕ)
    (lengths_after_sparse_data_all2all : List ℕ)
    (input_splits output_splits : List ℕ) (variable_batch_size : Bool)
    (codecs : Option QuantizedCommCodecs) :
    CommResult (List (List ℚ)) (List (List ℚ)) All2AllSequenceInfo :=
  if groupSize ≤ 1 then .noWait input
  else .request
    { embedding_dim := (input.headD []).length
      lengths_after_sparse_data_all2all := lengths_after_sparse_data_all2all
      forward_recat_tensor := some forward_recat_tensor
      backward_recat_tensor := backward_recat_tensor
      input_splits := input_splits
      output_splits := output_splits
      variable_batch_size := variable_batch_size
      codecs := codecs
      permuted_lengths_after_sparse_data_all2all := none } input

/-- The `dims_sum_per_rank` selection of `alltoallv`
(comm_ops.py:735-743): `out_split` wins when supplied, else it is
derived from `per_rank_split_lengths` and the first local dim, else a
`RuntimeError` is raised. -/
def alltoallvDimsSum (out_split : Option (List ℕ))
    (per_rank_split_lengths : Option (List ℕ)) (D_local_list : List ℕ) :
    Except String (List ℕ) :=
  match out_split with
  | some s => .ok s
  | none =>
    match per_rank_split_lengths with
    | some s => .ok (s.map (fun x => x * D_local_list.headD 0))
    | none => .error "Need to specify either out_split or per_rank_split_lengths"

/-- `alltoallv` (comm_ops.py:691-760): each input is a matrix; the
global batch is `inputs[0].size(0)` and the local dims are the column
counts.  Faithful to the source, there is NO `group_size <= 1` bypass:
the split computation runs and a request is issued unconditionally
(unless the configuration error fires). -/
def alltoallv (groupSize rank : ℕ) (inputs : List (List (List ℚ)))
    (out_split per_rank_split_lengths : Option (List ℕ))
    (codecs : Option QuantizedCommCodecs) :
    Except String (CommResult (List (List (List ℚ))) (List (List (List ℚ))) All2AllVInfo) :=
  let B_global := (inputs.headD []).length
  let D_local_list := inputs.map (fun e => (e.headD []).length)
  let BL := getSplitLengthsByLen groupSize rank B_global
  match alltoallvDimsSum out_split per_rank_split_lengths D_local_list with
  | .error e => .error e
  | .ok dims_sum_per_rank => .ok (.request
    { dims_sum_per_rank := dims_sum_per_rank
      B_global := B_global
      B_local := BL.1
      B_local_list := BL.2
      D_local_list := D_local_list
      input_split_sizes := []
      output_split_sizes := []
      codecs := codecs } inputs)

/-- `reduce_scatter_pooled` (comm_ops.py:798-836): at group size ≤ 1 the
bypass returns `inputs[group.rank()]`. -/
def reduce_scatter_pooled (groupSize rank : ℕ) (inputs : List (List ℚ))
    (codecs : Option QuantizedCommCodecs) :
    CommResult (List ℚ) (List (List ℚ)) ReduceScatterInfo :=
  if groupSize ≤ 1 then .noWait (inputs.getD rank [])
  else .request { input_sizes := inputs.map List.length, codecs := codecs } inputs

/-- `reduce_scatter_base_pooled` (comm_ops.py:860-896). -/
def reduce_scatter_base_pooled (groupSize : ℕ) (input : List ℚ)
    (codecs : Option QuantizedCommCodecs) : CommResult (List ℚ) (List ℚ) ReduceScatterBaseInfo :=
  if groupSize ≤ 1 then .noWait input
  else .request { input_sizes := input.length, codecs := codecs } input

/-- `all_gather_base_pooled` (comm_ops.py:921-955); the descriptor is
built before the bypass check, which does not change the returned
value. -/
def all_gather_base_pooled (groupSize : ℕ) (input : List ℚ)
    (codecs : Option QuantizedCommCodecs) : CommResult (List ℚ) (List ℚ) AllGatherBaseInfo :=
  let agi : AllGatherBaseInfo := { input_size := input.length, codecs := codecs }
  if groupSize ≤ 1 then .noWait input
  else .request agi input

/-- The `ReduceScatterVInfo` built by `reduce_scatter_v_pooled`
(comm_ops.py:1007-1020): per-rank input sizes replace dimension 0 of the
input size by the rank's split, and `equal_splits` is the Python
`all(ip_split == input_splits[0] for ip_split in input_splits)`. -/
def reduce_scatter_v_pooled_rsvi (input_size : List ℕ) (input_splits : List ℕ)
    (codecs : Option QuantizedCommCodecs) : ReduceScatterVInfo :=
  { input_sizes := input_splits.map (fun ip =>
      (List.range input_size.length).map (fun d =>
        if d = 0 then ip else input_size.getD d 0))
    input_splits := input_splits
    equal_splits := input_splits.all (fun ip => ip == input_splits.headD 0)
    total_input_size := input_size
    codecs := codecs }

/-- `reduce_scatter_v_pooled` (comm_ops.py:977-1027). -/
def reduce_scatter_v_pooled (groupSize : ℕ) (input : List ℚ)
    (input_splits : List ℕ) (codecs : Option QuantizedCommCodecs) :
    CommResult (List ℚ) (List ℚ) ReduceScatterVInfo :=
  if groupSize ≤ 1 then .noWait input
  else .request (reduce_scatter_v_pooled_rsvi [input.length] input_splits codecs) input

/-- The `ReduceScatterVInfo` built by `reduce_scatter_v_per_feature_pooled`
(comm_ops.py:1106-1123): splits are per-rank sums of
`batch_size * emb_dim` over features (`zip` truncates like Python's),
and `equal_splits` is hard-coded `False`. -/
def reduce_scatter_v_per_feature_pooled_rsvi (worldSize : ℕ)
    (batch_size_per_rank_per_feature : List (List ℕ)) (embedding_dims : List ℕ)
    (total_input_size : List ℕ) (codecs : Option QuantizedCommCodecs) :
    ReduceScatterVInfo :=
  let input_splits :=
    if batch_size_per_rank_per_feature = [] then List.replicate worldSize 0
    else (List.range worldSize).map (fun rank =>
      (((batch_size_per_rank_per_feature.getD rank []).zip embedding_dims).map
        (fun p => p.1 * p.2)).sum)
  { input_sizes := input_splits.map (fun s => [s])
    input_splits := input_splits
    equal_splits := false
    total_input_size := total_input_size
    codecs := codecs }

/-- `reduce_scatter_v_per_feature_pooled` (comm_ops.py:1070-1130). -/
def reduce_scatter_v_per_feature_pooled (groupSize : ℕ) (input : List ℚ)
    (batch_size_per_rank_per_feature : List (List ℕ)) (embedding_dims : List ℕ)
    (codecs : Option QuantizedCommCodecs) : CommResult (List ℚ) (List ℚ) ReduceScatterVInfo :=
  if groupSize ≤ 1 then .noWait input
  else .request
    (reduce_scatter_v_per_feature_pooled_rsvi groupSize
      batch_size_per_rank_per_feature embedding_dims [input.length] codecs) input

/-- C2 (counterexample): the claim includes `alltoallv` among the entry
points that return the input in an already-ready `NoWait` when the group
size is ≤ 1.  At group size 1 with a single 1×1 input and `out_split`
supplied, `alltoallv` still computes splits and issues a request — no
`NoWait` bypass exists in its source. -/
theorem C2_counterexample :
    isNoWaitResult (alltoallv 1 0 [[[(1 : ℚ)]]] (some [1]) none none) = false := by
  rfl

/-- C2 (amended): for group size ≤ 1, every collective entry point
EXCEPT `alltoallv` returns its input immediately wrapped in `NoWait`
(`reduce_scatter_pooled` returns the caller's own chunk
`inputs[group.rank()]`), performing no split computation and issuing no
request; `alltoallv` alone lacks the bypass and issues a request (or
raises the configuration error) even at group size 1. -/
theorem C2_single_rank_bypass (groupSize rank : ℕ) (h : groupSize ≤ 1)
    (t : List ℚ) (m : List (List ℚ)) (v : List (List (List ℚ)))
    (l1 l2 l3 lens : List ℕ) (ll1 ll2 : List (List ℕ)) (b : Bool)
    (os : List ℕ) (prs : Option (List ℕ)) (codecs : Option QuantizedCommCodecs) :
    alltoall_pooled groupSize t l1 l2 codecs = .noWait t ∧
    variable_batch_alltoall_pooled groupSize t ll1 l1 ll2 codecs = .noWait t ∧
    alltoall_sequence groupSize m l1 l2 lens l3 l1 b codecs = .noWait m ∧
    reduce_scatter_pooled groupSize rank m codecs = .noWait (m.getD rank []) ∧
    reduce_scatter_base_pooled groupSize t codecs = .noWait t ∧
    all_gather_base_pooled groupSize t codecs = .noWait t ∧
    reduce_scatter_v_pooled groupSize t l1 codecs = .noWait t ∧
    reduce_scatter_v_per_feature_pooled groupSize t ll1 l1 codecs = .noWait t ∧
    isNoWaitResult (alltoallv groupSize rank v (some os) prs codecs) = false := by
  refine ⟨?_, ?_, ?_, ?_, ?_, ?_, ?_, ?_, rfl⟩ <;>
    simp only [alltoall_pooled, variable_batch_alltoall_pooled, alltoall_sequence,
      reduce_scatter_pooled, reduce_scatter_base_pooled, all_gather_base_pooled,
      reduce_scatter_v_pooled, reduce_scatter_v_per_feature_pooled, if_pos h]

/-- Closed instance of `C2_single_rank_bypass` at group size 1. -/
theorem C2_witness :
    (1 : ℕ) ≤ 1 ∧
    (alltoall_pooled 1 [(1 : ℚ)] [1] [1] none = .noWait [(1 : ℚ)] ∧
     variable_batch_alltoall_pooled 1 [(1 : ℚ)] [[1]] [1] [[1]] none = .noWait [(1 : ℚ)] ∧
     alltoall_sequence 1 [[(1 : ℚ)]] [1] [1] [1] [1] [1] false none = .noWait [[(1 : ℚ)]] ∧
     reduce_scatter_pooled 1 0 [[(1 : ℚ)]] none = .noWait ([[(1 : ℚ)]].getD 0 []) ∧
     reduce_scatter_base_pooled 1 [(1 : ℚ)] none = .noWait [(1 : ℚ)] ∧
     all_gather_base_pooled 1 [(1 : ℚ)] none = .noWait [(1 : ℚ)] ∧
     reduce_scatter_v_pooled 1 [(1 : ℚ)] [1] none = .noWait [(1 : ℚ)] ∧
     reduce_scatter_v_per_feature_pooled 1 [(1 : ℚ)] [[1]] [1] none = .noWait [(1 : ℚ)] ∧
     isNoWaitResult (alltoallv 1 0 [[[(1 : ℚ)]]] (some [1]) none none) = false) :=
  ⟨le_refl 1,
   C2_single_rank_bypass 1 0 (le_refl 1) [(1 : ℚ)] [[(1 : ℚ)]] [[[(1 : ℚ)]]]
     [1] [1] [1] [1] [[1]] [[1]] false [1] none none⟩

/-- C6 (counterexample): the claim says `equal_splits` is true iff every
rank's computed split equals the first rank's, for BOTH public
reduce-scatter-vector entry points.  For
`reduce_scatter_v_per_feature_pooled` at world size 2 with batch sizes
`[[1],[1]]` and embedding dims `[2]`, the computed splits `[2,2]` are
all equal, yet the descriptor carries the hard-coded
`equal_splits = False`. -/
theorem C6_counterexample :
    ¬ (((reduce_scatter_v_per_feature_pooled_rsvi 2 [[1], [1]] [2] [4] none).equal_splits
          = true) ↔
       (∀ s ∈ (reduce_scatter_v_per_feature_pooled_rsvi 2 [[1], [1]] [2] [4] none).input_splits,
          s = (reduce_scatter_v_per_feature_pooled_rsvi 2 [[1], [1]] [2] [4] none).input_splits.headD 0)) := by
  decide

/-- C6 (amended): for descriptors built by `reduce_scatter_v_pooled`,
`equal_splits` is true iff every rank's input split equals the first
rank's; the descriptors built by `reduce_scatter_v_per_feature_pooled`
always carry `equal_splits = false`, even when the computed splits are
all equal. -/
theorem C6_equal_splits (input_size input_splits : List ℕ)
    (W : ℕ) (bs : List (List ℕ)) (dims tot : List ℕ)
    (codecs codecs2 : Option QuantizedCommCodecs) :
    (((reduce_scatter_v_pooled_rsvi input_size input_splits codecs).equal_splits = true) ↔
      (∀ s ∈ input_splits, s = input_splits.headD 0)) ∧
    (reduce_scatter_v_per_feature_pooled_rsvi W bs dims tot codecs2).equal_splits = false := by
  constructor
  · simp only [reduce_scatter_v_pooled_rsvi, List.all_eq_true, beq_iff_eq]
  · rfl

/-- C8: `alltoallv` uses `out_split` as the per-rank output dims when it
is supplied; when only `per_rank_split_lengths` is supplied the dims are
derived by scaling with the first local dim; when both are `None` a
`RuntimeError` is raised — and those are the only behaviours.  Stated on
the dims selection (`comm_ops.py:735-743`) and on the full entry
point. -/
theorem C8_alltoallv_config_error (s p D : List ℕ) (op : Option (List ℕ))
    (groupSize rank : ℕ) (inputs : List (List (List ℚ)))
    (codecs : Option QuantizedCommCodecs) :
    alltoallvDimsSum (some s) op D = .ok s ∧
    alltoallvDimsSum none (some p) D = .ok (p.map (fun x => x * D.headD 0)) ∧
    alltoallvDimsSum none none D
      = .error "Need to specify either out_split or per_rank_split_lengths" ∧
    alltoallv groupSize rank inputs none none codecs
      = .error "Need to specify either out_split or per_rank_split_lengths" ∧
    (alltoallv groupSize rank inputs (some s) op codecs).isOk = true ∧
    (alltoallv groupSize rank inputs none (some p) codecs).isOk = true := by
  exact ⟨rfl, rfl, rfl, rfl, rfl, rfl⟩

/-! ### Pooled all-to-all forward splits (C3, C7, C9)

`All2All_Pooled_Req.forward` (comm_ops.py:1181-1251) computes, on a rank
holding a `B_global x D_local_sum` input with `B_local =
batch_size_per_rank[my_rank]`:
`output_split_sizes = [B_local * D_rank_sum for D_rank_sum in dim_sum_per_rank]`
and
`input_split_sizes = [D_local_sum * B_rank for B_rank in batch_size_per_rank]`,
each mapped through `codecs.forward.calc_quantized_size` when a codec is
attached. -/

/-- Element-unit output splits of the pooled all-to-all forward. -/
def pooledOutputSplitsRaw (B_local : ℕ) (dim_sum_per_rank : List ℕ) : List ℕ :=
  dim_sum_per_rank.map (fun D_rank_sum => B_local * D_rank_sum)

/-- Element-unit input splits of the pooled all-to-all forward. -/
def pooledInputSplitsRaw (D_local_sum : ℕ) (batch_size_per_rank : List ℕ) : List ℕ :=
  batch_size_per_rank.map (fun B_rank => D_local_sum * B_rank)

/-- Reading an in-range position of a mapped list. -/
lemma getD_map_of_lt (l : List ℕ) (f : ℕ → ℕ) (i : ℕ) (h : i < l.length) :
    (l.map f).getD i 0 = f (l.getD i 0) := by
  rw [List.getD_eq_getElem?_getD, List.getElem?_map, List.getElem?_eq_getElem h,
    List.getD_eq_getElem?_getD, List.getElem?_eq_getElem h]
  rfl

/-- C7 (counterexample): the claim asserts that on one rank the sum of
the input splits equals the sum of the output splits.  Take world size
2, `batch_size_per_rank = [1, 2]`, `dim_sum_per_rank = [3, 4]`, rank 0
(so `B_local = 1`, `D_local_sum = 3`, a valid 3x3-element input):
input splits `[3, 6]` sum to 9 but output splits `[3, 4]` sum to 7. -/
theorem C7_counterexample :
    ¬ ((pooledInputSplitsRaw 3 [1, 2]).sum = (pooledOutputSplitsRaw 1 [3, 4]).sum) := by
  decide

/-- C7 (amended): on each rank, the pooled all-to-all's input splits sum
to `D_local_sum * B_global` — the element count of its
`B_global x D_local_sum` input (the forward asserts
`B_global = sum(batch_size_per_rank)`) — and its output splits sum to
`B_local * sum(dim_sum_per_rank)`, the element count of the received
buffer (allocated as `sum(output_split_sizes)`).  These two per-rank
sums differ in general; what is conserved across the wire is that the
split rank `r` sends to rank `q` (`dim_sum_per_rank[r] *
batch_size_per_rank[q]`, computed on `r`) equals the split rank `q`
expects from rank `r` (`batch_size_per_rank[q] * dim_sum_per_rank[r]`,
computed on `q`). -/
theorem C7_split_conservation (batch_size_per_rank dim_sum_per_rank : List ℕ)
    (B_local D_local_sum q r : ℕ)
    (hq : q < batch_size_per_rank.length) (hr : r < dim_sum_per_rank.length) :
    (pooledInputSplitsRaw D_local_sum batch_size_per_rank).sum
      = D_local_sum * batch_size_per_rank.sum ∧
    (pooledOutputSplitsRaw B_local dim_sum_per_rank).sum
      = B_local * dim_sum_per_rank.sum ∧
    (pooledInputSplitsRaw (dim_sum_per_rank.getD r 0) batch_size_per_rank).getD q 0
      = (pooledOutputSplitsRaw (batch_size_per_rank.getD q 0) dim_sum_per_rank).getD r 0 := by
  refine ⟨?_, ?_, ?_⟩
  · simpa using List.sum_map_mul_left batch_size_per_rank id D_local_sum
  · simpa using List.sum_map_mul_left dim_sum_per_rank id B_local
  · rw [pooledInputSplitsRaw, pooledOutputSplitsRaw,
      getD_map_of_lt _ _ _ hq, getD_map_of_lt _ _ _ hr, mul_comm]

/-- Closed instance of `C7_split_conservation` at the counterexample's
configuration (both per-side sums, and the cross-rank send/receive
match). -/
theorem C7_witness :
    (0 < 2 ∧ 1 < 2) ∧
    ((pooledInputSplitsRaw 3 [1, 2]).sum = 3 * [1, 2].sum ∧
     (pooledOutputSplitsRaw 1 [3, 4]).sum = 1 * [3, 4].sum ∧
     (pooledInputSplitsRaw ([3, 4].getD 1 0) [1, 2]).getD 0 0
       = (pooledOutputSplitsRaw ([1, 2].getD 0 0) [3, 4]).getD 1 0) :=
  ⟨by decide, C7_split_conservation [1, 2] [3, 4] 1 3 0 1 (by decide) (by decide)⟩

/-- Map a split-size list through `calc_quantized_size` when a codec is
attached, as every split-computation site is supposed to do. -/
def maybeQuantizeF (codecs : Option QuantizedCommCodecs) (splits : List ℕ) : List ℕ :=
  match codecs with
  | some cs => splits.map cs.forward.calcQuantizedSize
  | none => splits

/-- The wire split sizes `(output_split_sizes, input_split_sizes)` of
`All2All_Pooled_Req.forward` (comm_ops.py:1200-1226): element-unit
splits from `B_local`/`D_local_sum`, mapped through
`codecs.forward.calc_quantized_size` when a codec is attached. -/
def all2All_Pooled_Req_forward_splits (rank : ℕ) (a2ai : All2AllPooledInfo)
    (D_local_sum : ℕ) : List ℕ × List ℕ :=
  let B_local := a2ai.batch_size_per_rank.getD rank 0
  match a2ai.codecs with
  | some codecs =>
    ((a2ai.dim_sum_per_rank.map (fun D_rank_sum => B_local * D_rank_sum)).map
       codecs.forward.calcQuantizedSize,
     (a2ai.batch_size_per_rank.map (fun B_rank => D_local_sum * B_rank)).map
       codecs.forward.calcQuantizedSize)
  | none =>
    (a2ai.dim_sum_per_rank.map (fun D_rank_sum => B_local * D_rank_sum),
     a2ai.batch_size_per_rank.map (fun B_rank => D_local_sum * B_rank))

/-- Element-unit input splits of
`Variable_Batch_All2All_Pooled_Req.forward` (comm_ops.py:1406-1417):
per destination rank, the sum over features of
`batch_size_per_rank_per_feature[i][f] * emb_dim_per_rank_per_feature[my_rank][f]`
(`zip` truncates like Python's); all zeros when the batch-size table is
empty (Python falsiness of `[]`). -/
def vbInputSplitsRaw (world_size rank : ℕ)
    (a2ai : VariableBatchAll2AllPooledInfo) : List ℕ :=
  if a2ai.batch_size_per_rank_per_feature = [] then List.replicate world_size 0
  else (List.range world_size).map (fun i =>
    (((a2ai.batch_size_per_rank_per_feature.getD i []).zip
        (a2ai.emb_dim_per_rank_per_feature.getD rank [])).map
      (fun p => p.1 * p.2)).sum)

/-- Walks the per-rank dim lists consuming the flat pre-transfer batch
list with a running index, as the `ind` loop of the variable-batch
output-split computation does (comm_ops.py:1420-1428). -/
def vbOutputSplitsAux : List (List ℕ) → List ℕ → List ℕ
  | [], _ => []
  | d :: ds, batch =>
    (((batch.take d.length).zip d).map (fun p => p.1 * p.2)).sum
      :: vbOutputSplitsAux ds (batch.drop d.length)

/-- Element-unit output splits of
`Variable_Batch_All2All_Pooled_Req.forward`. -/
def vbOutputSplitsRaw (world_size : ℕ) (emb_dim_per_rank_per_feature : List (List ℕ))
    (batch_size_per_feature_pre_a2a : List ℕ) : List ℕ :=
  vbOutputSplitsAux
    ((List.range world_size).map (fun i => emb_dim_per_rank_per_feature.getD i []))
    batch_size_per_feature_pre_a2a

/-- The wire split sizes `(output_split_sizes, input_split_sizes)` of
`Variable_Batch_All2All_Pooled_Req.forward` (comm_ops.py:1406-1453):
quantized when a codec is attached. -/
def variable_Batch_All2All_Pooled_Req_forward_splits (world_size rank : ℕ)
    (a2ai : VariableBatchAll2AllPooledInfo) : List ℕ × List ℕ :=
  let input_split_sizes := vbInputSplitsRaw world_size rank a2ai
  let output_split_sizes := vbOutputSplitsRaw world_size
    a2ai.emb_dim_per_rank_per_feature a2ai.batch_size_per_feature_pre_a2a
  match a2ai.codecs with
  | some codecs =>
    (output_split_sizes.map codecs.forward.calcQuantizedSize,
     input_split_sizes.map codecs.forward.calcQuantizedSize)
  | none => (output_split_sizes, input_split_sizes)

/-- The split computation of `All2All_Seq_Req.forward`
(comm_ops.py:1607-1696) — identically of its sync twin
`all2all_sequence_sync` (comm_ops.py:612-688): the caller's
`output_splits`, scaled by `D`, become the transfer's send
(`input_split_sizes`) and the caller's `input_splits`, scaled by `D`,
its receive (`output_split_sizes`); the scaled, swapped lists overwrite
the descriptor's fields, and the wire sizes are additionally quantized
when a codec is attached.  Returns
`((wire output_split_sizes, wire input_split_sizes), updated descriptor)`. -/
def all2All_Seq_Req_forward_state (a2ai : All2AllSequenceInfo) :
    (List ℕ × List ℕ) × All2AllSequenceInfo :=
  let D := a2ai.embedding_dim
  let input_splits := a2ai.output_splits.map (fun i => i * D)
  let output_splits := a2ai.input_splits.map (fun i => i * D)
  let a2ai2 := { a2ai with input_splits := input_splits, output_splits := output_splits }
  match a2ai.codecs with
  | some codecs =>
    ((output_splits.map codecs.forward.calcQuantizedSize,
      input_splits.map codecs.forward.calcQuantizedSize), a2ai2)
  | none => ((output_splits, input_splits), a2ai2)

/-- The split computation of `all2all_sequence_sync`
(comm_ops.py:617-671), textually the same as the async forward's. -/
def all2all_sequence_sync_splits (a2ai : All2AllSequenceInfo) :
    (List ℕ × List ℕ) × All2AllSequenceInfo :=
  let D := a2ai.embedding_dim
  let input_splits := a2ai.output_splits.map (fun i => i * D)
  let output_splits := a2ai.input_splits.map (fun i => i * D)
  let a2ai2 := { a2ai with input_splits := input_splits, output_splits := output_splits }
  match a2ai.codecs with
  | some codecs =>
    ((output_splits.map codecs.forward.calcQuantizedSize,
      input_splits.map codecs.forward.calcQuantizedSize), a2ai2)
  | none => ((output_splits, input_splits), a2ai2)

/-- The wire splits of `All2All_Seq_Req_Wait.backward`
(comm_ops.py:1775-1817): it reads the descriptor's (previously
overwritten) fields back, swapped once more —
`input_splits = a2ai.output_splits`, `output_splits = a2ai.input_splits`
— quantizing with the backward codec when attached.  Returns
`(wire output_split_sizes, wire input_split_sizes)`. -/
def all2All_Seq_Req_Wait_backward_splits (a2ai : All2AllSequenceInfo) :
    List ℕ × List ℕ :=
  let input_splits := a2ai.output_splits
  let output_splits := a2ai.input_splits
  match a2ai.codecs with
  | some codecs =>
    (output_splits.map codecs.backward.calcQuantizedSize,
     input_splits.map codecs.backward.calcQuantizedSize)
  | none => (output_splits, input_splits)

/-- The wire of `All2Allv_Req.forward` (comm_ops.py:1831-1846):
`input_split_sizes = [m * sum(D_local_list) for m in B_local_list]`,
`output_split_sizes = [B_local * e for e in dims_sum_per_rank]`, and the
payload is `codecs.forward.encode` of the concatenated input when a
codec is attached.  Faithful to the source, the split sizes are NOT
passed through `calc_quantized_size` even when the payload is encoded.
Returns `(payload, input_split_sizes, output_split_sizes)`. -/
def all2Allv_Req_forward_wire (a2ai : All2AllVInfo) (input : List ℚ) :
    List ℚ × List ℕ × List ℕ :=
  let input_split_sizes := a2ai.B_local_list.map (fun m => m * a2ai.D_local_list.sum)
  let output_split_sizes := a2ai.dims_sum_per_rank.map (fun e => a2ai.B_local * e)
  let payload := match a2ai.codecs with
    | some cs => cs.forward.encode input
    | none => input
  (payload, input_split_sizes, output_split_sizes)

/-- A codec pair whose `calc_quantized_size` is `n + 1` (a header byte,
say) with identity wire transforms: a minimal codec that changes split
sizes. -/
def incCodec : QuantizedCommCodecs :=
  { forward := { encode := id, decode := id, calcQuantizedSize := fun n => n + 1 }
    backward := { encode := id, decode := id, calcQuantizedSize := fun n => n + 1 } }

/-- A concrete `All2AllVInfo` with the `incCodec` codec attached:
one local table of dim 1, local batches `[2]`, `B_local = 1`. -/
def a2aiVEx : All2AllVInfo :=
  { dims_sum_per_rank := [1]
    B_global := 2
    B_local := 1
    B_local_list := [2]
    D_local_list := [1]
    input_split_sizes := []
    output_split_sizes := []
    codecs := some incCodec }

/-- C3 (counterexample): the claim says every wire split equals
`calc_quantized_size` of the element-unit split whenever a codec is
attached, in particular for the `alltoallv` forward.  With `incCodec`
attached, `All2Allv_Req.forward` issues the transfer with raw input
splits `[2]`, not the quantized `[3]` the claim requires. -/
theorem C3_counterexample :
    ¬ ((all2Allv_Req_forward_wire a2aiVEx [(1 : ℚ), (1 : ℚ)]).2.1
       = (a2aiVEx.B_local_list.map (fun m => m * a2aiVEx.D_local_list.sum)).map
           incCodec.forward.calcQuantizedSize) := by
  decide

/-- C3 (amended): with a codec attached, the pooled, variable-batch
pooled and sequence all-to-all forwards put every wire split through
`codecs.forward.calc_quantized_size` applied to the element-unit split;
the vector all-to-all (`alltoallv`) forward is the exception — it
encodes the payload yet issues the transfer with the raw element-unit
splits. -/
theorem C3_codec_split_sizes (rank world_size D_local_sum : ℕ)
    (a2ai : All2AllPooledInfo) (vb : VariableBatchAll2AllPooledInfo)
    (sq : All2AllSequenceInfo) (av : All2AllVInfo) (c : QuantizedCommCodecs)
    (input : List ℚ)
    (h1 : a2ai.codecs = some c) (h2 : vb.codecs = some c)
    (h3 : sq.codecs = some c) (h4 : av.codecs = some c) :
    all2All_Pooled_Req_forward_splits rank a2ai D_local_sum
      = ((pooledOutputSplitsRaw (a2ai.batch_size_per_rank.getD rank 0)
            a2ai.dim_sum_per_rank).map c.forward.calcQuantizedSize,
         (pooledInputSplitsRaw D_local_sum a2ai.batch_size_per_rank).map
           c.forward.calcQuantizedSize) ∧
    variable_Batch_All2All_Pooled_Req_forward_splits world_size rank vb
      = ((vbOutputSplitsRaw world_size vb.emb_dim_per_rank_per_feature
            vb.batch_size_per_feature_pre_a2a).map c.forward.calcQuantizedSize,
         (vbInputSplitsRaw world_size rank vb).map c.forward.calcQuantizedSize) ∧
    (all2All_Seq_Req_forward_state sq).1
      = ((sq.input_splits.map (fun i => i * sq.embedding_dim)).map
           c.forward.calcQuantizedSize,
         (sq.output_splits.map (fun i => i * sq.embedding_dim)).map
           c.forward.calcQuantizedSize) ∧
    (all2Allv_Req_forward_wire av input).2
      = (av.B_local_list.map (fun m => m * av.D_local_list.sum),
         av.dims_sum_per_rank.map (fun e => av.B_local * e)) ∧
    (all2Allv_Req_forward_wire av input).1 = c.forward.encode input := by
  refine ⟨?_, ?_, ?_, rfl, ?_⟩
  · simp [all2All_Pooled_Req_forward_splits, h1, pooledOutputSplitsRaw,
      pooledInputSplitsRaw]
  · simp [variable_Batch_All2All_Pooled_Req_forward_splits, h2]
  · simp [all2All_Seq_Req_forward_state, h3]
  · simp [all2Allv_Req_forward_wire, h4]

/-- A concrete pooled descriptor carrying `incCodec`. -/
def a2aiPEx : All2AllPooledInfo :=
  { batch_size_per_rank := [1, 2]
    dim_sum_per_rank := [3, 4]
    codecs := some incCodec }

/-- A concrete variable-batch descriptor carrying `incCodec`. -/
def vbEx : VariableBatchAll2AllPooledInfo :=
  { batch_size_per_rank_per_feature := [[1], [2]]
    batch_size_per_feature_pre_a2a := [1, 2]
    emb_dim_per_rank_per_feature := [[2], [3]]
    codecs := some incCodec
    input_splits := none
    output_splits := none }

/-- A concrete sequence descriptor carrying `incCodec`. -/
def sqEx : All2AllSequenceInfo :=
  { embedding_dim := 2
    lengths_after_sparse_data_all2all := [1, 1]
    forward_recat_tensor := some [0, 1]
    backward_recat_tensor := [0, 1]
    input_splits := [1, 1]
    output_splits := [2, 0]
    variable_batch_size := false
    codecs := some incCodec
    permuted_lengths_after_sparse_data_all2all := none }

/-- Closed instance of `C3_codec_split_sizes` on concrete descriptors
with the `incCodec` codec. -/
theorem C3_witness :
    (a2aiPEx.codecs = some incCodec ∧ vbEx.codecs = some incCodec ∧
     sqEx.codecs = some incCodec ∧ a2aiVEx.codecs = some incCodec) ∧
    (all2All_Pooled_Req_forward_splits 0 a2aiPEx 3
       = ((pooledOutputSplitsRaw (a2aiPEx.batch_size_per_rank.getD 0 0)
             a2aiPEx.dim_sum_per_rank).map incCodec.forward.calcQuantizedSize,
          (pooledInputSplitsRaw 3 a2aiPEx.batch_size_per_rank).map
            incCodec.forward.calcQuantizedSize) ∧
     variable_Batch_All2All_Pooled_Req_forward_splits 2 0 vbEx
       = ((vbOutputSplitsRaw 2 vbEx.emb_dim_per_rank_per_feature
             vbEx.batch_size_per_feature_pre_a2a).map incCodec.forward.calcQuantizedSize,
          (vbInputSplitsRaw 2 0 vbEx).map incCodec.forward.calcQuantizedSize) ∧
     (all2All_Seq_Req_forward_state sqEx).1
       = ((sqEx.input_splits.map (fun i => i * sqEx.embedding_dim)).map
            incCodec.forward.calcQuantizedSize,
          (sqEx.output_splits.map (fun i => i * sqEx.embedding_dim)).map
            incCodec.forward.calcQuantizedSize) ∧
     (all2Allv_Req_forward_wire a2aiVEx [(1 : ℚ), (1 : ℚ)]).2
       = (a2aiVEx.B_local_list.map (fun m => m * a2aiVEx.D_local_list.sum),
          a2aiVEx.dims_sum_per_rank.map (fun e => a2aiVEx.B_local * e)) ∧
     (all2Allv_Req_forward_wire a2aiVEx [(1 : ℚ), (1 : ℚ)]).1
       = incCodec.forward.encode [(1 : ℚ), (1 : ℚ)]) :=
  ⟨⟨rfl, rfl, rfl, rfl⟩,
   C3_codec_split_sizes 0 2 3 a2aiPEx vbEx sqEx a2aiVEx incCodec
     [(1 : ℚ), (1 : ℚ)] rfl rfl rfl rfl⟩

/-- C10: in the sequence all-to-all forward, the caller-supplied splits
are rows of the preceding sparse-data all-to-all: the forward transfer
sends with `output_splits * D` and receives with `input_splits * D`
(swapped roles, scaled by the embedding dim, then quantized if a codec
is attached), these swapped scaled values overwrite the descriptor's
fields, the sync twin computes exactly the same, and the backward then
reads the overwritten fields back (swapping once more, so it sends with
the forward's receive sizes). -/
theorem C10_seq_split_swap (a2ai : All2AllSequenceInfo) :
    (all2All_Seq_Req_forward_state a2ai).1
      = (maybeQuantizeF a2ai.codecs
           (a2ai.input_splits.map (fun i => i * a2ai.embedding_dim)),
         maybeQuantizeF a2ai.codecs
           (a2ai.output_splits.map (fun i => i * a2ai.embedding_dim))) ∧
    (all2All_Seq_Req_forward_state a2ai).2.input_splits
      = a2ai.output_splits.map (fun i => i * a2ai.embedding_dim) ∧
    (all2All_Seq_Req_forward_state a2ai).2.output_splits
      = a2ai.input_splits.map (fun i => i * a2ai.embedding_dim) ∧
    all2all_sequence_sync_splits a2ai = all2All_Seq_Req_forward_state a2ai ∧
    all2All_Seq_Req_Wait_backward_splits (all2All_Seq_Req_forward_state a2ai).2
      = (let cs := a2ai.codecs
         match cs with
         | some codecs =>
           ((a2ai.output_splits.map (fun i => i * a2ai.embedding_dim)).map
              codecs.backward.calcQuantizedSize,
            (a2ai.input_splits.map (fun i => i * a2ai.embedding_dim)).map
              codecs.backward.calcQuantizedSize)
         | none =>
           (a2ai.output_splits.map (fun i => i * a2ai.embedding_dim),
            a2ai.input_splits.map (fun i => i * a2ai.embedding_dim))) := by
  rcases hc : a2ai.codecs with - | c <;>
    simp [all2All_Seq_Req_forward_state, all2all_sequence_sync_splits,
      all2All_Seq_Req_Wait_backward_splits, maybeQuantizeF, hc]

/-! ### Tensor primitives for the value-level pipelines (C5, C9) -/

/-- `torch.Tensor.split(sizes)` on a flat tensor: fails (raises) unless
the sizes sum exactly to the length. -/
def splitList : List ℚ → List ℕ → Option (List (List ℚ))
  | xs, [] => if xs.isEmpty then some [] else none
  | xs, n :: ns =>
    if n ≤ xs.length then
      (splitList (xs.drop n) ns).map (fun rest => xs.take n :: rest)
    else none

/-- `tensor.view(B, -1)`: succeeds iff `B` divides the element count
(and `B ≠ 0`), yielding the `B` rows. -/
def viewRows (B : ℕ) (xs : List ℚ) : Option (List (List ℚ)) :=
  if B ≠ 0 ∧ xs.length % B = 0 then
    some ((List.range B).map (fun i =>
      (xs.drop (i * (xs.length / B))).take (xs.length / B)))
  else none

/-- `torch.cat(mats, dim=1)` on matrices that all have `B` rows. -/
def catCols (B : ℕ) (mats : List (List (List ℚ))) : List (List ℚ) :=
  (List.range B).map (fun i => (mats.map (fun m => m.getD i [])).flatten)

/-- The common tail of both pooled all-to-all paths: split the decoded
wire tensor by the given sizes, view each chunk as `B_local` rows, and
concatenate along dim 1. -/
def pooledFinalize (B_local : ℕ) (split_sizes : List ℕ) (decoded : List ℚ) :
    Option (List (List ℚ)) :=
  (splitList decoded split_sizes).bind (fun chunks =>
    (chunks.mapM (viewRows B_local)).map (catCols B_local))

/-- `torch.sum(torch.stack(chunks), dim=0)`: elementwise sum of a
nonempty list of equal-length chunks. -/
def sumVecs : List (List ℚ) → List ℚ
  | [] => []
  | c :: cs => cs.foldl (fun acc d => List.zipWith (fun a b => a + b) acc d) c

/-- Decode with the forward-direction codec when attached. -/
def forwardDecode (codecs : Option QuantizedCommCodecs) (g : List ℚ) : List ℚ :=
  match codecs with
  | some cs => cs.forward.decode g
  | none => g

/-- Encode with the forward-direction codec when attached. -/
def forwardEncode (codecs : Option QuantizedCommCodecs) (g : List ℚ) : List ℚ :=
  match codecs with
  | some cs => cs.forward.encode g
  | none => g

/-! ### Reduce-scatter-v: sync emulation vs. async native (C5) -/

/-- The network primitive a reduce-scatter-v path hands to the
process group. -/
inductive CollectiveOp where
  | allToAllSingle (output_splits input_splits : List ℕ)
  | reduceScatterTensor
  | reduceScatterBase
  | reduceScatterList (input_splits : List ℕ)
deriving DecidableEq

/-- Whether the issued primitive is an all-to-all (the emulation). -/
def CollectiveOp.isAllToAllSingle : CollectiveOp → Bool
  | .allToAllSingle _ _ => true
  | _ => false

/-- `reduce_scatter_v_sync` (comm_ops.py:1030-1067): encode; with equal
splits use the functional reduce-scatter (its result abstracted as
`rsTensor`); otherwise EMULATE the uneven reduce-scatter with a full
`all_to_all_single` whose receive sizes are `world_size` copies of the
caller's own split, summing the stack of received chunks; decode.
Returns the issued primitive and the produced value. -/
def reduce_scatter_v_sync_run (transfer : List ℚ → List ℕ → List ℕ → List ℚ)
    (rsTensor : List ℚ → List ℚ) (rsi : ReduceScatterVInfo)
    (world_size rank : ℕ) (input : List ℚ) : CollectiveOp × Option (List ℚ) :=
  let encoded := forwardEncode rsi.codecs input
  if rsi.equal_splits then
    (.reduceScatterTensor, some (forwardDecode rsi.codecs (rsTensor encoded)))
  else
    let input_splits := rsi.input_splits
    let output_splits := List.replicate world_size (rsi.input_splits.getD rank 0)
    let a2a_output := transfer encoded output_splits input_splits
    (.allToAllSingle output_splits input_splits,
     (splitList a2a_output output_splits).map (fun chunks =>
       forwardDecode rsi.codecs (sumVecs chunks)))

/-- The primitive issued by `ReduceScatterV_Req.forward`
(comm_ops.py:2263-2280): `dist._reduce_scatter_base` for equal splits,
otherwise the NATIVE vector reduce-scatter `dist.reduce_scatter` over
`torch.split(input, rsi.input_splits)` — not an all-to-all emulation. -/
def reduceScatterV_Req_forward_op (rsi : ReduceScatterVInfo) : CollectiveOp :=
  if rsi.equal_splits then .reduceScatterBase
  else .reduceScatterList rsi.input_splits

/-- C5 (counterexample): the claim says the all-to-all emulation "holds
for both the synchronous path and the async `ReduceScatterV_Req`
forward".  For the descriptor built by `reduce_scatter_v_pooled` from
the uneven splits `[1, 2]`, the async forward issues a native
`dist.reduce_scatter` on the split list — not an all-to-all. -/
theorem C5_counterexample :
    (reduceScatterV_Req_forward_op
      (reduce_scatter_v_pooled_rsvi [3] [1, 2] none)).isAllToAllSingle = false := by
  rfl

/-- C5 (amended): with `equal_splits = false`, the SYNCHRONOUS
reduce-scatter-v path emulates the uneven reduce-scatter by a full
all-to-all of the per-target-rank shards (receive sizes: `world_size`
copies of the caller's own split) followed by summing the stack of
received chunks; the ASYNC `ReduceScatterV_Req.forward`, by contrast,
issues the native vector reduce-scatter `dist.reduce_scatter` over the
input split list and performs no all-to-all emulation. -/
theorem C5_rsv_uneven_paths (transfer : List ℚ → List ℕ → List ℕ → List ℚ)
    (rsTensor : List ℚ → List ℚ) (rsi : ReduceScatterVInfo)
    (world_size rank : ℕ) (input : List ℚ) (h : rsi.equal_splits = false) :
    (reduce_scatter_v_sync_run transfer rsTensor rsi world_size rank input).1
      = .allToAllSingle (List.replicate world_size (rsi.input_splits.getD rank 0))
          rsi.input_splits ∧
    (reduce_scatter_v_sync_run transfer rsTensor rsi world_size rank input).2
      = (splitList (transfer (forwardEncode rsi.codecs input)
            (List.replicate world_size (rsi.input_splits.getD rank 0))
            rsi.input_splits)
          (List.replicate world_size (rsi.input_splits.getD rank 0))).map
          (fun chunks => forwardDecode rsi.codecs (sumVecs chunks)) ∧
    reduceScatterV_Req_forward_op rsi = .reduceScatterList rsi.input_splits ∧
    (reduceScatterV_Req_forward_op rsi).isAllToAllSingle = false := by
  refine ⟨?_, ?_, ?_, ?_⟩ <;>
    simp [reduce_scatter_v_sync_run, reduceScatterV_Req_forward_op, h,
      CollectiveOp.isAllToAllSingle]

/-- Closed instance of `C5_rsv_uneven_paths` on the `[1, 2]`-splits
descriptor at world size 2, rank 0, with a transfer returning zeros. -/
theorem C5_witness :
    ((reduce_scatter_v_pooled_rsvi [3] [1, 2] none).equal_splits = false) ∧
    ((reduce_scatter_v_sync_run (fun _ o _ => List.replicate o.sum 0) id
        (reduce_scatter_v_pooled_rsvi [3] [1, 2] none) 2 0 [(1 : ℚ), 2, 3]).1
       = .allToAllSingle
           (List.replicate 2
             ((reduce_scatter_v_pooled_rsvi [3] [1, 2] none).input_splits.getD 0 0))
           (reduce_scatter_v_pooled_rsvi [3] [1, 2] none).input_splits ∧
     (reduce_scatter_v_sync_run (fun _ o _ => List.replicate o.sum 0) id
        (reduce_scatter_v_pooled_rsvi [3] [1, 2] none) 2 0 [(1 : ℚ), 2, 3]).2
       = (splitList
            ((fun (_ : List ℚ) (o : List ℕ) (_ : List ℕ) =>
                List.replicate o.sum (0 : ℚ))
              (forwardEncode (reduce_scatter_v_pooled_rsvi [3] [1, 2] none).codecs
                [(1 : ℚ), 2, 3])
              (List.replicate 2
                ((reduce_scatter_v_pooled_rsvi [3] [1, 2] none).input_splits.getD 0 0))
              (reduce_scatter_v_pooled_rsvi [3] [1, 2] none).input_splits)
            (List.replicate 2
              ((reduce_scatter_v_pooled_rsvi [3] [1, 2] none).input_splits.getD 0 0))).map
           (fun chunks =>
             forwardDecode (reduce_scatter_v_pooled_rsvi [3] [1, 2] none).codecs
               (sumVecs chunks)) ∧
     reduceScatterV_Req_forward_op (reduce_scatter_v_pooled_rsvi [3] [1, 2] none)
       = .reduceScatterList (reduce_scatter_v_pooled_rsvi [3] [1, 2] none).input_splits ∧
     (reduceScatterV_Req_forward_op
        (reduce_scatter_v_pooled_rsvi [3] [1, 2] none)).isAllToAllSingle = false) :=
  ⟨rfl,
   C5_rsv_uneven_paths (fun _ o _ => List.replicate o.sum 0) id
     (reduce_scatter_v_pooled_rsvi [3] [1, 2] none) 2 0 [(1 : ℚ), 2, 3] rfl⟩

/-! ### Pooled all-to-all: synchronous twin vs. async pair (C9) -/

/-- `all2all_pooled_sync` (comm_ops.py:378-435): assert
`B_global == sum(batch_size_per_rank)`; encode; compute the
(possibly quantized) splits; transfer; decode; then split the decoded
tensor by `output_split_sizes` — the QUANTIZED sizes when a codec is
attached — and concatenate the `B_local`-row views along dim 1. -/
def all2all_pooled_sync (transfer : List ℚ → List ℕ → List ℕ → List ℚ)
    (rank : ℕ) (a2ai : All2AllPooledInfo) (input_embeddings : List ℚ)
    (B_global D_local_sum : ℕ) : Option (List (List ℚ)) :=
  let B_local := a2ai.batch_size_per_rank.getD rank 0
  if B_global = a2ai.batch_size_per_rank.sum then
    match a2ai.codecs with
    | some codecs =>
      let sharded_input := codecs.forward.encode input_embeddings
      let output_split_sizes :=
        (a2ai.dim_sum_per_rank.map (fun D_rank_sum => B_local * D_rank_sum)).map
          codecs.forward.calcQuantizedSize
      let input_split_sizes :=
        (a2ai.batch_size_per_rank.map (fun B_rank => D_local_sum * B_rank)).map
          codecs.forward.calcQuantizedSize
      let wire := transfer sharded_input output_split_sizes input_split_sizes
      pooledFinalize B_local output_split_sizes (codecs.forward.decode wire)
    | none =>
      let output_split_sizes :=
        a2ai.dim_sum_per_rank.map (fun D_rank_sum => B_local * D_rank_sum)
      let input_split_sizes :=
        a2ai.batch_size_per_rank.map (fun B_rank => D_local_sum * B_rank)
      let wire := transfer input_embeddings output_split_sizes input_split_sizes
      pooledFinalize B_local output_split_sizes wire
  else none

/-- One full forward pass of the async pooled pair:
`All2All_Pooled_Req.forward` (comm_ops.py:1181-1251) computes the same
splits, encodes and issues the same transfer; `All2All_Pooled_Wait.forward`
(comm_ops.py:1285-1319) then decodes and splits the received tensor by
the freshly recomputed RAW element-unit sizes
`[B_local * D_rank_sum for D_rank_sum in dim_sum_per_rank]`, and
concatenates the `B_local`-row views along dim 1. -/
def all2All_Pooled_Req_Wait_forward (transfer : List ℚ → List ℕ → List ℕ → List ℚ)
    (rank : ℕ) (a2ai : All2AllPooledInfo) (input_embeddings : List ℚ)
    (B_global D_local_sum : ℕ) : Option (List (List ℚ)) :=
  let B_local := a2ai.batch_size_per_rank.getD rank 0
  if B_global = a2ai.batch_size_per_rank.sum then
    match a2ai.codecs with
    | some codecs =>
      let sharded_input := codecs.forward.encode input_embeddings
      let output_split_sizes :=
        (a2ai.dim_sum_per_rank.map (fun D_rank_sum => B_local * D_rank_sum)).map
          codecs.forward.calcQuantizedSize
      let input_split_sizes :=
        (a2ai.batch_size_per_rank.map (fun B_rank => D_local_sum * B_rank)).map
          codecs.forward.calcQuantizedSize
      let wire := transfer sharded_input output_split_sizes input_split_sizes
      pooledFinalize B_local
        (a2ai.dim_sum_per_rank.map (fun D_rank_sum => B_local * D_rank_sum))
        (codecs.forward.decode wire)
    | none =>
      let output_split_sizes :=
        a2ai.dim_sum_per_rank.map (fun D_rank_sum => B_local * D_rank_sum)
      let input_split_sizes :=
        a2ai.batch_size_per_rank.map (fun B_rank => D_local_sum * B_rank)
      let wire := transfer input_embeddings output_split_sizes input_split_sizes
      pooledFinalize B_local output_split_sizes wire
  else none

/-- A codec pair whose `calc_quantized_size` doubles the size, with
identity wire transforms. -/
def doubleCodec : QuantizedCommCodecs :=
  { forward := { encode := id, decode := id, calcQuantizedSize := fun n => 2 * n }
    backward := { encode := id, decode := id, calcQuantizedSize := fun n => 2 * n } }

/-- A pooled descriptor carrying `doubleCodec`: two ranks with batch
`[1, 1]` and dim sums `[1, 1]`. -/
def a2aiC9Ex : All2AllPooledInfo :=
  { batch_size_per_rank := [1, 1]
    dim_sum_per_rank := [1, 1]
    codecs := some doubleCodec }

/-- A transfer that returns zeros of the requested receive size (the
shape any real all-to-all honours). -/
def zeroTransfer : List ℚ → List ℕ → List ℕ → List ℚ :=
  fun _ output_split_sizes _ => List.replicate output_split_sizes.sum 0

/-- C9 (counterexample): the claim demands sync/async agreement for any
codec.  With `doubleCodec` attached (quantized splits `[2, 2]` vs. raw
`[1, 1]`), on the same 2-element input and the same zero-returning
transfer, the sync path splits the 4-element decoded tensor by the
quantized sizes and returns a value, while the async wait splits it by
the raw sizes and fails — the two paths differ. -/
theorem C9_counterexample :
    ¬ (all2all_pooled_sync zeroTransfer 0 a2aiC9Ex [(1 : ℚ), 2] 2 1
       = all2All_Pooled_Req_Wait_forward zeroTransfer 0 a2aiC9Ex [(1 : ℚ), 2] 2 1) := by
  decide

/-- C9 (amended): the synchronous pooled path is numerically identical
to one full forward pass of the async pair (same transfer, same input,
same metadata) when NO codec is attached; with a codec attached the two
paths agree provided `calc_quantized_size` preserves every output split
size (e.g. an identity codec) — otherwise they diverge, because the
sync path splits the decoded result by the quantized sizes while the
async wait splits it by the element-unit sizes. -/
theorem C9_sync_async_equiv (transfer : List ℚ → List ℕ → List ℕ → List ℚ)
    (rank B_global D_local_sum : ℕ) (a2ai : All2AllPooledInfo)
    (input_embeddings : List ℚ) :
    (a2ai.codecs = none →
      all2all_pooled_sync transfer rank a2ai input_embeddings B_global D_local_sum
        = all2All_Pooled_Req_Wait_forward transfer rank a2ai input_embeddings
            B_global D_local_sum) ∧
    (∀ c, a2ai.codecs = some c →
      (pooledOutputSplitsRaw (a2ai.batch_size_per_rank.getD rank 0)
          a2ai.dim_sum_per_rank).map c.forward.calcQuantizedSize
        = pooledOutputSplitsRaw (a2ai.batch_size_per_rank.getD rank 0)
            a2ai.dim_sum_per_rank →
      all2all_pooled_sync transfer rank a2ai input_embeddings B_global D_local_sum
        = all2All_Pooled_Req_Wait_forward transfer rank a2ai input_embeddings
            B_global D_local_sum) := by
  constructor
  · intro hc
    simp [all2all_pooled_sync, all2All_Pooled_Req_Wait_forward, hc]
  · intro c hc hquant
    simp only [pooledOutputSplitsRaw, List.map_map, List.getD_eq_getElem?_getD] at hquant
    simp only [all2all_pooled_sync, all2All_Pooled_Req_Wait_forward, hc,
      List.map_map, List.getD_eq_getElem?_getD]
    rw [hquant]

/-- Closed instance of `C9_sync_async_equiv` without a codec. -/
theorem C9_witness :
    ((All2AllPooledInfo.mk [1, 1] [1, 1] none).codecs = none) ∧
    (all2all_pooled_sync zeroTransfer 0 (All2AllPooledInfo.mk [1, 1] [1, 1] none)
        [(1 : ℚ), 2] 2 1
      = all2All_Pooled_Req_Wait_forward zeroTransfer 0
          (All2AllPooledInfo.mk [1, 1] [1, 1] none) [(1 : ℚ), 2] 2 1) :=
  ⟨rfl,
   (C9_sync_async_equiv zeroTransfer 0 2 1 (All2AllPooledInfo.mk [1, 1] [1, 1] none)
     [(1 : ℚ), 2]).1 rfl⟩

end CommOps
